import Mathlib

/-!
Verification of the money-coach feature-flag resolution pipeline.

Shallow embedding of:
- `src/shared/services/http.ts` (`getEnabledFeatures`): request construction
  and decoding of the partner-features payload;
- `src/unnamed/part_005` (`useEnabledFeatures` hook): the loading/error/data
  resolution state and its transitions;
- `src/shared/contexts/EnabledFeaturesContext.tsx`
  (`useEnabledFeaturesContext`): context consumption;
- `src/screens/WillsScreen.tsx` (`FinancialProductsScreen`): the
  `enabledProducts` catalog filter;
- `src/data/financial-products-data.ts` (`FINANCIAL_PRODUCTS`).

JavaScript objects with string keys iterate in insertion order, so a raw
feature payload (`Object.entries(response.data.features)`) is embedded as an
association list `List (String × String)` in iteration order.
-/

namespace MoneyCoach

/-- `EnabledFeatures` from `src/shared/services/http.ts`: a partner id and
the list of enabled feature names. -/
structure EnabledFeatures where
  partnerId : String
  enabledFeatureNames : List String
deriving DecidableEq

/-- `EnabledFeaturesResponse`: the wire payload
`{partnerId, features: {name: status, ...}}`, with the `features` object as
an association list in iteration order. -/
structure EnabledFeaturesResponse where
  partnerId : String
  features : List (String × String)
deriving DecidableEq

/-- The decoding step inside `getEnabledFeatures`
(`src/shared/services/http.ts` lines 12-14):
`Object.entries(features).filter(([_, status]) => status === 'enabled').map(([featureName]) => featureName)`. -/
def enabledFeatureNamesOf (features : List (String × String)) : List String :=
  (features.filter (fun p => p.2 == "enabled")).map Prod.fst

/-- The pure part of `getEnabledFeatures`: transforms the (already
received) response body into an `EnabledFeatures` value
(`src/shared/services/http.ts` lines 12-19). -/
def getEnabledFeatures (response : EnabledFeaturesResponse) : EnabledFeatures :=
  { partnerId := response.partnerId
    enabledFeatureNames := enabledFeatureNamesOf response.features }

/-- C1: the decoder keeps exactly the names whose status string is
`"enabled"` (case-sensitive, untrimmed `===` comparison): the number of
returned names equals the number of `"enabled"` entries, a name is returned
exactly when it appears with status `"enabled"`, and the returned names are
a subsequence of the payload's keys in iteration order. -/
theorem enabledFeatureNamesOf_exact (features : List (String × String)) :
    (enabledFeatureNamesOf features).length
      = features.countP (fun p => p.2 == "enabled")
    ∧ (∀ n, n ∈ enabledFeatureNamesOf features ↔ (n, "enabled") ∈ features)
    ∧ List.Sublist (enabledFeatureNamesOf features) (features.map Prod.fst) := by
  refine ⟨?_, ?_, ?_⟩
  · simp [enabledFeatureNamesOf, List.countP_eq_length_filter]
  · intro n
    constructor
    · intro hn
      rcases List.mem_map.mp hn with ⟨p, hp, hfst⟩
      rcases List.mem_filter.mp hp with ⟨hmem, hstat⟩
      have h2 : p.2 = "enabled" := by simpa using hstat
      have : p = (n, "enabled") := by
        cases p
        simp_all
      simpa [this] using hmem
    · intro hn
      refine List.mem_map.mpr ⟨(n, "enabled"), ?_, rfl⟩
      exact List.mem_filter.mpr ⟨hn, by simp⟩
  · exact (List.filter_sublist _).map Prod.fst

/-!
## The resolution state (`useEnabledFeatures`, `src/unnamed/part_005`)

The hook's state is the triple `{enabledFeatures, isLoading, error}`.
`fetchEnabledFeatures` runs `setIsLoading(true); setError(null)`, awaits the
fetch, on success runs `setEnabledFeatures(features)`, on rejection runs
`setError(...)`, and finally runs `setIsLoading(false)`.  JavaScript is
single-threaded, so the synchronous segment before the `await` and the
settlement segment after it are each atomic; a run of the hook is a sequence
of `mount` / `refetch` / `settle` actions.  The model additionally tracks
`pending` (fetches in flight) and `fetchCount` (network calls issued, the
quantity a mocked `getEnabledFeatures` would observe); a `settle` with no
fetch in flight cannot occur in a real trace and is modelled as a no-op.
-/

/-- A JavaScript rejection value: either an `Error` object with a `message`,
or a non-`Error` value such as a plain string. -/
inductive JsRejection where
  | errorObj (message : String)
  | nonError (value : String)
deriving DecidableEq

/-- `err instanceof Error ? err.message : 'Failed to fetch enabled features'`
(`src/unnamed/part_005` line 23). -/
def rejectionMessage : JsRejection → String
  | .errorObj m => m
  | .nonError _ => "Failed to fetch enabled features"

/-- Outcome of one awaited `getEnabledFeatures` call. -/
inductive FetchResult where
  | success (features : EnabledFeatures)
  | failure (err : JsRejection)
deriving DecidableEq

/-- State of the `useEnabledFeatures` hook: the three React state fields
plus model bookkeeping (`pending` fetches in flight, `fetchCount` total
network calls issued). -/
structure HookState where
  enabledFeatures : Option EnabledFeatures
  isLoading : Bool
  error : Option String
  pending : Nat
  fetchCount : Nat
deriving DecidableEq

/-- Initial hook state: `useState(null)`, `useState(true)`, `useState(null)`
(`src/unnamed/part_005` lines 12-14), no fetch issued. -/
def initialState : HookState :=
  { enabledFeatures := none, isLoading := true, error := none
    pending := 0, fetchCount := 0 }

/-- The synchronous prefix of `fetchEnabledFeatures`:
`setIsLoading(true); setError(null)` and the network call is issued. -/
def beginFetch (s : HookState) : HookState :=
  { s with isLoading := true, error := none
           pending := s.pending + 1, fetchCount := s.fetchCount + 1 }

/-- The settlement suffix of `fetchEnabledFeatures`: on success
`setEnabledFeatures(features)`, on rejection `setError(message)` (the
previous `enabledFeatures` is not touched), and in both cases `finally`
runs `setIsLoading(false)`. -/
def settleFetch (s : HookState) : FetchResult → HookState
  | .success f =>
      { s with enabledFeatures := some f, isLoading := false
               pending := s.pending - 1 }
  | .failure e =>
      { s with error := some (rejectionMessage e), isLoading := false
               pending := s.pending - 1 }

/-- An observable action on the hook. -/
inductive Action where
  | mount
  | refetch
  | settle (r : FetchResult)
deriving DecidableEq

/-- One action step.  `mount` is the `useEffect` body, guarded by
`if (partnerId)` — an empty `partnerId` is falsy, so no fetch starts.
`refetch` calls `fetchEnabledFeatures` directly, with no guard.  A `settle`
with no fetch in flight cannot occur and leaves the state unchanged. -/
def act (partnerId : String) (s : HookState) : Action → HookState
  | .mount => if partnerId.isEmpty then s else beginFetch s
  | .refetch => beginFetch s
  | .settle r => if s.pending == 0 then s else settleFetch s r

/-- Run the hook from its initial state through a sequence of actions. -/
def runHook (partnerId : String) (acts : List Action) : HookState :=
  acts.foldl (act partnerId) initialState

/-- Does an action settle a fetch successfully? -/
def isSuccessSettle : Action → Bool
  | .settle (.success _) => true
  | _ => false

/-- Is the action an explicit `refetch()` call? -/
def isRefetchCall : Action → Bool
  | .refetch => true
  | _ => false

/-- Exactly one of Loading / Ready / Failed, as the spec's tri-state reads:
loading with no data and no error, or data with no loading and no error, or
error with no loading and no data. -/
def exactlyOneOutcome (s : HookState) : Bool :=
  (s.isLoading && s.enabledFeatures.isNone && s.error.isNone)
  || (!s.isLoading && s.enabledFeatures.isSome && s.error.isNone)
  || (!s.isLoading && s.enabledFeatures.isNone && s.error.isSome)

/-- Invariant that actually holds before any successful settlement:
no data, and loading and error mutually exclusive. -/
def loadingOrFailedNoData (s : HookState) : Bool :=
  s.enabledFeatures.isNone
  && ((s.isLoading && s.error.isNone) || (!s.isLoading && s.error.isSome))

lemma loadingOrFailedNoData_act (partnerId : String) (s : HookState)
    (a : Action) (ha : isSuccessSettle a = false)
    (hs : loadingOrFailedNoData s = true) :
    loadingOrFailedNoData (act partnerId s a) = true := by
  cases a with
  | mount =>
      by_cases hp : partnerId.isEmpty
      · simpa [act, hp] using hs
      · have hact : act partnerId s .mount = beginFetch s := by simp [act, hp]
        rw [hact]
        simp [beginFetch, loadingOrFailedNoData] at hs ⊢
        tauto
  | refetch =>
      simp [act, beginFetch, loadingOrFailedNoData] at hs ⊢
      tauto
  | settle r =>
      cases r with
      | success f => simp [isSuccessSettle] at ha
      | failure e =>
          by_cases hp : s.pending = 0
          · simpa [act, hp] using hs
          · have hact : act partnerId s (.settle (.failure e))
                = settleFetch s (.failure e) := by simp [act, hp]
            rw [hact]
            simp [settleFetch, loadingOrFailedNoData] at hs ⊢
            tauto

lemma loadingOrFailedNoData_foldl (partnerId : String) (acts : List Action)
    (s : HookState) (ha : acts.any isSuccessSettle = false)
    (hs : loadingOrFailedNoData s = true) :
    loadingOrFailedNoData (acts.foldl (act partnerId) s) = true := by
  induction acts generalizing s with
  | nil => simpa using hs
  | cons a rest ih =>
      rw [List.any_cons, Bool.or_eq_false_iff] at ha
      exact ih _ ha.2 (loadingOrFailedNoData_act partnerId s a ha.1 hs)

lemma exactlyOneOutcome_of_loadingOrFailedNoData (s : HookState)
    (h : loadingOrFailedNoData s = true) : exactlyOneOutcome s = true := by
  simp [loadingOrFailedNoData, exactlyOneOutcome] at h ⊢
  tauto

/-- C2 (amended): for every run of the hook that contains no successful
settlement, the state is exactly one of the three outcomes — Loading with
no data and no error, or Failed with no data.  (After a successful fetch the
tri-state invariant fails: see the counterexample.) -/
theorem triState_exactlyOne_before_success (partnerId : String)
    (acts : List Action) (h : acts.any isSuccessSettle = false) :
    exactlyOneOutcome (runHook partnerId acts) = true :=
  exactlyOneOutcome_of_loadingOrFailedNoData _
    (loadingOrFailedNoData_foldl partnerId acts initialState h rfl)

/-- Witness for C2 (amended): a mount followed by a failed settlement
contains no successful settlement, and the resulting state is exactly one
outcome (Failed). -/
theorem triState_exactlyOne_before_success_witness :
    ([Action.mount,
        Action.settle (FetchResult.failure (JsRejection.errorObj "Network error"))].any
      isSuccessSettle = false)
    ∧ exactlyOneOutcome (runHook "p1"
        [Action.mount,
          Action.settle (FetchResult.failure (JsRejection.errorObj "Network error"))]) = true :=
  ⟨by decide, triState_exactlyOne_before_success "p1" _ (by decide)⟩

/-- C2 (counterexample): the tri-state invariant fails on the code.  After a
successful resolve and a failed refetch — a reachable state — the hook holds
data and error simultaneously; and while the refetch is in flight it holds
data while loading.  This refutes "when Failed there is no data, and data
and error are never present simultaneously". -/
theorem triState_counterexample :
    ((runHook "p1"
        [Action.mount,
          Action.settle (FetchResult.success ⟨"p1", ["Wills"]⟩),
          Action.refetch,
          Action.settle (FetchResult.failure (JsRejection.errorObj "Network error"))]).enabledFeatures
      = some ⟨"p1", ["Wills"]⟩)
    ∧ ((runHook "p1"
        [Action.mount,
          Action.settle (FetchResult.success ⟨"p1", ["Wills"]⟩),
          Action.refetch,
          Action.settle (FetchResult.failure (JsRejection.errorObj "Network error"))]).error
      = some "Network error")
    ∧ ((runHook "p1"
        [Action.mount,
          Action.settle (FetchResult.success ⟨"p1", ["Wills"]⟩),
          Action.refetch]).enabledFeatures = some ⟨"p1", ["Wills"]⟩)
    ∧ ((runHook "p1"
        [Action.mount,
          Action.settle (FetchResult.success ⟨"p1", ["Wills"]⟩),
          Action.refetch]).isLoading = true) := by
  refine ⟨?_, ?_, ?_, ?_⟩ <;> decide

/-- C4: a failed fetch attempt is converted into the Failed outcome, never
an exception: rejecting with an `Error` object stores its `message`
(so `Error("Network error")` yields `error = "Network error"`), rejecting
with a non-`Error` value stores the fixed fallback message, and in both
cases loading ends.  The concrete runs from the spec's scenarios close the
statement. -/
theorem failure_sets_error_message (s : HookState) (m v : String) :
    ((settleFetch (beginFetch s) (.failure (.errorObj m))).error = some m)
    ∧ ((settleFetch (beginFetch s) (.failure (.nonError v))).error
        = some "Failed to fetch enabled features")
    ∧ ((settleFetch (beginFetch s) (.failure (.errorObj m))).isLoading = false)
    ∧ ((settleFetch (beginFetch s) (.failure (.nonError v))).isLoading = false)
    ∧ ((runHook "p1"
          [Action.mount,
            Action.settle (FetchResult.failure (JsRejection.errorObj "Network error"))]).error
        = some "Network error")
    ∧ ((runHook "p1"
          [Action.mount,
            Action.settle (FetchResult.failure (JsRejection.nonError "String error"))]).error
        = some "Failed to fetch enabled features") :=
  ⟨rfl, rfl, rfl, rfl, by decide, by decide⟩

/-- C5 (amended): the hook starts in Loading, and with an empty `partnerId`
the mount effect issues no fetch: as long as `refetch()` is never invoked
the state stays exactly the initial Loading state and no network call is
issued.  (An explicit `refetch()` call, however, has no `partnerId` guard:
see the counterexample.) -/
theorem emptyPartnerId_stays_loading_without_refetch (acts : List Action)
    (h : acts.any isRefetchCall = false) :
    runHook "" acts = initialState
    ∧ (runHook "" acts).isLoading = true
    ∧ (runHook "" acts).fetchCount = 0 := by
  have hrun : runHook "" acts = initialState := by
    induction acts with
    | nil => rfl
    | cons a rest ih =>
        rw [List.any_cons, Bool.or_eq_false_iff] at h
        have hstep : act "" initialState a = initialState := by
          cases a with
          | mount => rfl
          | refetch => simp [isRefetchCall] at h
          | settle r => rfl
        show (a :: rest).foldl (act "") initialState = initialState
        rw [List.foldl_cons, hstep]
        exact ih h.2
  exact ⟨hrun, by rw [hrun]; rfl, by rw [hrun]; rfl⟩

/-- Witness for C5 (amended): a refetch-free trace with empty `partnerId`
ends in the initial Loading state with zero fetches issued. -/
theorem emptyPartnerId_stays_loading_without_refetch_witness :
    ([Action.mount, Action.mount].any isRefetchCall = false)
    ∧ (runHook "" [Action.mount, Action.mount] = initialState
        ∧ (runHook "" [Action.mount, Action.mount]).isLoading = true
        ∧ (runHook "" [Action.mount, Action.mount]).fetchCount = 0) :=
  ⟨by decide,
    emptyPartnerId_stays_loading_without_refetch [Action.mount, Action.mount]
      (by decide)⟩

/-- C5 (counterexample): with an empty `partnerId`, an explicit `refetch()`
call does issue a network call (`fetchEnabledFeatures` has no guard), and
once that fetch settles the state leaves Loading — refuting "never leaves
Loading under any sequence of steps (including refetch) and no network call
is ever issued". -/
theorem emptyPartnerId_refetch_counterexample :
    ((runHook "" [Action.mount, Action.refetch]).fetchCount = 1)
    ∧ ((runHook ""
          [Action.mount, Action.refetch,
            Action.settle (FetchResult.success ⟨"p1", ["Wills"]⟩)]).isLoading
        = false) := by
  exact ⟨by decide, by decide⟩

/-- C6: a fetch that succeeds with payload
`{partnerId: "p1", features: {"Wills": "enabled", "AVC": "disabled"}}`
leaves the hook Ready: the decoded features are exactly
`{partnerId := "p1", enabledFeatureNames := ["Wills"]}`, loading is
cleared and there is no error. -/
theorem successScenario_ready :
    ((runHook "p1"
        [Action.mount,
          Action.settle (FetchResult.success
            (getEnabledFeatures ⟨"p1", [("Wills", "enabled"), ("AVC", "disabled")]⟩))]).enabledFeatures
      = some ⟨"p1", ["Wills"]⟩)
    ∧ ((runHook "p1"
        [Action.mount,
          Action.settle (FetchResult.success
            (getEnabledFeatures ⟨"p1", [("Wills", "enabled"), ("AVC", "disabled")]⟩))]).isLoading
      = false)
    ∧ ((runHook "p1"
        [Action.mount,
          Action.settle (FetchResult.success
            (getEnabledFeatures ⟨"p1", [("Wills", "enabled"), ("AVC", "disabled")]⟩))]).error
      = none) := by
  refine ⟨?_, ?_, ?_⟩ <;> decide

/-- C9: the failure path never clears previously resolved features: an
attempt that fails leaves `enabledFeatures` exactly as it was, changing only
`error` and `isLoading`; concretely, a failed refetch after a successful
fetch retains the earlier data. -/
theorem failure_preserves_enabledFeatures (s : HookState) (e : JsRejection) :
    ((settleFetch (beginFetch s) (.failure e)).enabledFeatures
        = s.enabledFeatures)
    ∧ ((settleFetch (beginFetch s) (.failure e)).error
        = some (rejectionMessage e))
    ∧ ((settleFetch (beginFetch s) (.failure e)).isLoading = false)
    ∧ ((runHook "p1"
          [Action.mount,
            Action.settle (FetchResult.success ⟨"p1", ["Wills"]⟩),
            Action.refetch,
            Action.settle (FetchResult.failure (JsRejection.errorObj "boom"))]).enabledFeatures
        = some ⟨"p1", ["Wills"]⟩) :=
  ⟨rfl, rfl, rfl, by decide⟩

/-!
## The context distributor (`src/shared/contexts/EnabledFeaturesContext.tsx`)

`createContext(undefined)` means a consumer outside any provider reads
`undefined`; inside a provider it reads the provided
`{enabledFeatures, isLoading, error}` value.  Throwing is embedded as
`Except.error`.
-/

/-- The context value `{enabledFeatures, isLoading, error}`. -/
structure EnabledFeaturesContextType where
  enabledFeatures : Option EnabledFeatures
  isLoading : Bool
  error : Option String
deriving DecidableEq

/-- `useEnabledFeaturesContext`: reads the nearest provided value (`none`
when outside any provider, since the context default is `undefined`) and
throws when it is `undefined`. -/
def useEnabledFeaturesContext (ctx : Option EnabledFeaturesContextType) :
    Except String EnabledFeaturesContextType :=
  match ctx with
  | none =>
      .error "useEnabledFeaturesContext must be used within an EnabledFeaturesProvider"
  | some v => .ok v

/-- C7: consuming the context outside any provider scope always throws the
configuration error "useEnabledFeaturesContext must be used within an
EnabledFeaturesProvider" and never returns a value; inside a provider scope
it returns exactly the provided outcome. -/
theorem useEnabledFeaturesContext_spec (v : EnabledFeaturesContextType) :
    (useEnabledFeaturesContext none
      = Except.error
          "useEnabledFeaturesContext must be used within an EnabledFeaturesProvider")
    ∧ ((useEnabledFeaturesContext none).isOk = false)
    ∧ (useEnabledFeaturesContext (some v) = Except.ok v) :=
  ⟨rfl, rfl, rfl⟩

/-!
## The fetch client request (`src/shared/services/http.ts` lines 4-10)

`axios.create({baseURL})` resolves a relative url by prepending the base
address; `http.get(url)` issues a `GET` with no request body.  The url is
built by plain template interpolation:
`` `/api/partners/${partnerId}/features` `` — no encoding is applied.
-/

/-- The fixed remote base address baked into the axios singleton. -/
def baseURL : String :=
  "https://money-coach-api-828818752472.us-central1.run.app"

/-- An HTTP request as observable at this layer. -/
structure HttpRequest where
  method : String
  url : String
  body : Option String
deriving DecidableEq

/-- The request issued by `getEnabledFeatures`: a `GET` to the base address
plus `/api/partners/${partnerId}/features` (template interpolation), with
no body. -/
def getEnabledFeaturesRequest (partnerId : String) : HttpRequest :=
  { method := "GET"
    url := baseURL ++ "/api/partners/" ++ partnerId ++ "/features"
    body := none }

/-- Modelled from the spec: "partnerId URL-path-encoded".  JavaScript's
`encodeURIComponent` (the standard way to path-encode a segment, absent from
the repository's code) keeps ASCII letters and digits and the marks
`-`, `_`, `.`, `!`, `~`, `*`, `(`, `)` and the apostrophe, and
percent-encodes every other ASCII character as `%HH` with uppercase hex
digits; the apostrophe case is irrelevant to the inputs used here and is
folded into the unreserved set by listing code point 39. -/
def isUnreservedChar (c : Char) : Bool :=
  c.isAlphanum || c = '-' || c = '_' || c = '.' || c = '!' || c = '~'
    || c = '*' || c = '(' || c = ')' || c.toNat = 39

/-- Uppercase hexadecimal digit for a value below 16. -/
def hexDigit (n : Nat) : Char :=
  if n < 10 then Char.ofNat (48 + n) else Char.ofNat (55 + n)

/-- Percent-encode a single ASCII character as `%HH`. -/
def percentEncodeChar (c : Char) : String :=
  String.mk ['%', hexDigit (c.toNat / 16), hexDigit (c.toNat % 16)]

/-- Modelled from the spec: URL-path-encoding of a path segment
(`encodeURIComponent` on ASCII input). -/
def encodePathSegment (s : String) : String :=
  String.join (s.data.map (fun c =>
    if isUnreservedChar c then String.mk [c] else percentEncodeChar c))

/-- C8 (amended): for every `partnerId`, the fetch client issues a `GET`
with no body to the fixed base address followed by
`/api/partners/{partnerId}/features`, with the `partnerId` interpolated
verbatim into the path (no URL encoding is applied). -/
theorem getEnabledFeaturesRequest_shape (partnerId : String) :
    ((getEnabledFeaturesRequest partnerId).method = "GET")
    ∧ ((getEnabledFeaturesRequest partnerId).body = none)
    ∧ ((getEnabledFeaturesRequest partnerId).url
        = baseURL ++ "/api/partners/" ++ partnerId ++ "/features") :=
  ⟨rfl, rfl, rfl⟩

/-- C8 (counterexample): the `partnerId` is not URL-path-encoded.  For
`partnerId = "a b"` the code builds a url containing the raw space, which
differs from the url built with the path-encoded segment (`"a%20b"`) — so
the claim "with the partnerId URL-path-encoded" fails. -/
theorem getEnabledFeaturesRequest_not_encoded :
    (encodePathSegment "a b" = "a%20b")
    ∧ ((getEnabledFeaturesRequest "a b").url
        = baseURL ++ "/api/partners/" ++ "a b" ++ "/features")
    ∧ (((getEnabledFeaturesRequest "a b").url
          == baseURL ++ "/api/partners/" ++ encodePathSegment "a b" ++ "/features")
        = false) := by
  refine ⟨by decide, rfl, by decide⟩

/-!
## The product catalog filter
(`src/screens/WillsScreen.tsx`, `FinancialProductsScreen` lines 43-52)

```
if (!enabledFeatures) return [];
return FINANCIAL_PRODUCTS.filter((product) =>
    enabledFeatures.enabledFeatureNames.includes(product.name));
```

The computation closes over the static `FINANCIAL_PRODUCTS` catalog; it is
embedded with the catalog as an explicit argument (`visibleProducts`), and
`enabledProducts` is the source's instantiation at `FINANCIAL_PRODUCTS`.
-/

/-- `IFinancialProduct` (`src/types/financialProduct.ts`). -/
structure IFinancialProduct where
  id : String
  name : String
  screenName : String
deriving DecidableEq

/-- The static catalog `FINANCIAL_PRODUCTS`
(`src/data/financial-products-data.ts`). -/
def FINANCIAL_PRODUCTS : List IFinancialProduct :=
  [⟨"fp1", "AVC", "AVC"⟩,
    ⟨"fp2", "Mortgages", "Mortgages"⟩,
    ⟨"fp3", "Wills", "Wills"⟩,
    ⟨"fp4", "Protection", "Protection"⟩,
    ⟨"fp5", "Payroll Savings", "PayrollSavings"⟩]

/-- The `enabledProducts` computation with the catalog abstracted:
`null`/falsy `enabledFeatures` yields `[]`, otherwise keep the products
whose `name` is `includes`-contained in `enabledFeatureNames`. -/
def visibleProducts (catalog : List IFinancialProduct)
    (enabledFeatures : Option EnabledFeatures) : List IFinancialProduct :=
  match enabledFeatures with
  | none => []
  | some ef => catalog.filter (fun p => ef.enabledFeatureNames.contains p.name)

/-- The source's `enabledProducts`, over the static catalog. -/
def enabledProducts (enabledFeatures : Option EnabledFeatures) :
    List IFinancialProduct :=
  visibleProducts FINANCIAL_PRODUCTS enabledFeatures

/-- C3: the filter is a pure function returning exactly the catalog subset
whose `name` is among the resolved names; a missing resolved value
(loading/error) yields the empty sequence, an empty name list yields the
empty sequence, and on the two-product catalog of the spec's scenario with
resolved names `["Mortgages"]` exactly the `fp2` descriptor is visible. -/
theorem visibleProducts_spec (catalog : List IFinancialProduct)
    (pid : String) (names : List String) :
    (∀ p, p ∈ visibleProducts catalog (some ⟨pid, names⟩)
        ↔ p ∈ catalog ∧ p.name ∈ names)
    ∧ (visibleProducts catalog none = [])
    ∧ (visibleProducts catalog (some ⟨pid, []⟩) = [])
    ∧ (visibleProducts
        [⟨"fp1", "AVC", "AVC"⟩, ⟨"fp2", "Mortgages", "Mortgages"⟩]
        (some ⟨pid, ["Mortgages"]⟩)
      = [⟨"fp2", "Mortgages", "Mortgages"⟩]) := by
  refine ⟨?_, rfl, ?_, ?_⟩
  · intro p
    simp [visibleProducts, List.mem_filter]
  · simp [visibleProducts]
  · rfl

lemma contains_eq_of_mem_iff (names names' : List String)
    (h : ∀ n, n ∈ names ↔ n ∈ names') (a : String) :
    names.contains a = names'.contains a := by
  by_cases hm : a ∈ names
  · have hm' : a ∈ names' := (h a).mp hm
    simp [hm, hm']
  · have hm' : a ∉ names' := fun hc => hm ((h a).mpr hc)
    simp [hm, hm']

lemma count_filter_eq (p : IFinancialProduct) (pred : IFinancialProduct → Bool)
    (catalog : List IFinancialProduct) :
    (catalog.filter pred).count p
      = if pred p then catalog.count p else 0 := by
  induction catalog with
  | nil => simp
  | cons q rest ih =>
      by_cases hq : pred q
      · by_cases hpq : q = p
        · subst hpq
          simp [List.filter_cons, hq, List.count_cons, ih]
        · have : ¬ (p = q) := fun hc => hpq hc.symm
          simp [List.filter_cons, hq, List.count_cons, ih, this]
      · by_cases hpq : q = p
        · subst hpq
          simp [List.filter_cons, hq, List.count_cons, ih, hq]
        · have : ¬ (p = q) := fun hc => hpq hc.symm
          simp [List.filter_cons, hq, List.count_cons, ih, this]

/-- C10: the filter's output follows the catalog's order (it is a sublist of
the catalog) and contains each matching descriptor exactly as often as the
catalog does (so exactly once for the duplicate-free static catalog) and no
non-matching descriptor; and the output depends only on membership in the
resolved-names list — duplicating or reordering the names leaves it
unchanged. -/
theorem visibleProducts_order_and_membership (catalog : List IFinancialProduct)
    (pid pid' : String) (names names' : List String)
    (h : ∀ n, n ∈ names ↔ n ∈ names') :
    List.Sublist (visibleProducts catalog (some ⟨pid, names⟩)) catalog
    ∧ (∀ p, (visibleProducts catalog (some ⟨pid, names⟩)).count p
        = if p.name ∈ names then catalog.count p else 0)
    ∧ (visibleProducts catalog (some ⟨pid, names⟩)
        = visibleProducts catalog (some ⟨pid', names'⟩)) := by
  refine ⟨List.filter_sublist _, ?_, ?_⟩
  · intro p
    rw [visibleProducts, count_filter_eq]
    by_cases hm : p.name ∈ names
    · simp [hm]
    · simp [hm]
  · show catalog.filter _ = catalog.filter _
    exact List.filter_congr (fun a _ =>
      contains_eq_of_mem_iff names names' h a.name)

/-- Witness for C10: on the static catalog, the name lists
`["Mortgages", "AVC", "AVC"]` and `["AVC", "Mortgages"]` have the same
members, and the filter output is a sublist of the catalog with the stated
counts, unchanged under the reordering and deduplication. -/
theorem visibleProducts_order_and_membership_witness :
    (∀ n, n ∈ ["Mortgages", "AVC", "AVC"] ↔ n ∈ ["AVC", "Mortgages"])
    ∧ (List.Sublist
        (visibleProducts FINANCIAL_PRODUCTS
          (some ⟨"p1", ["Mortgages", "AVC", "AVC"]⟩)) FINANCIAL_PRODUCTS
      ∧ (∀ p, (visibleProducts FINANCIAL_PRODUCTS
            (some ⟨"p1", ["Mortgages", "AVC", "AVC"]⟩)).count p
          = if p.name ∈ ["Mortgages", "AVC", "AVC"] then
              FINANCIAL_PRODUCTS.count p else 0)
      ∧ (visibleProducts FINANCIAL_PRODUCTS
            (some ⟨"p1", ["Mortgages", "AVC", "AVC"]⟩)
          = visibleProducts FINANCIAL_PRODUCTS
            (some ⟨"p2", ["AVC", "Mortgages"]⟩))) := by
  have h : ∀ n, n ∈ ["Mortgages", "AVC", "AVC"] ↔ n ∈ ["AVC", "Mortgages"] := by
    intro n
    simp [List.mem_cons]
    tauto
  exact ⟨h,
    visibleProducts_order_and_membership FINANCIAL_PRODUCTS "p1" "p2"
      ["Mortgages", "AVC", "AVC"] ["AVC", "Mortgages"] h⟩

end MoneyCoach
